import Mathlib

/-!
Verification development for the Bullpen RAG backend (`backend/main.py`).

The Python source is shallowly embedded: pure helpers (`clean_text`,
`extract_snippet`, the lexical tiers of `classify_query`) become Lean
functions over `String`/`List Char`; every call to an external service
(embedding provider, vector index, web search, chat completion, sentence
tokenizer) is threaded in as an explicit oracle value, with `Except`
results modelling a call that may raise.  Character-level behaviour is
modelled for the ASCII fragment that the source's regexes (`[a-z]`,
`[A-Z]`, `[^\x00-\x7F]`) and keyword lists actually exercise; Python's
`\s` class is modelled by the exact Unicode whitespace code-point set it
matches.
-/

namespace Bullpen

/-- Python regex `\s` / `str.split()` whitespace class over Unicode strings:
ASCII `\t \n \v \f \r`, `\x1c`-`\x20`, and the Unicode space code points. -/
def pyIsSpace (c : Char) : Bool :=
  let n := c.toNat
  (9 ≤ n && n ≤ 13) || (28 ≤ n && n ≤ 32) || n == 133 || n == 160 || n == 5760 ||
  (8192 ≤ n && n ≤ 8202) || n == 8232 || n == 8233 || n == 8239 || n == 8287 || n == 12288

/-- Python regex class `[a-z]` (ASCII lowercase letter). -/
def isAsciiLower (c : Char) : Bool := 97 ≤ c.toNat && c.toNat ≤ 122

/-- Python regex class `[A-Z]` (ASCII uppercase letter). -/
def isAsciiUpper (c : Char) : Bool := 65 ≤ c.toNat && c.toNat ≤ 90

/-- Character inside the 7-bit range `\x00`-`\x7F`. -/
def isAsciiChar (c : Char) : Bool := c.toNat ≤ 127

/-- Python `str.lower()` (ASCII case mapping, the fragment the source exercises). -/
def toLowerStr (s : String) : String := String.mk (s.toList.map Char.toLower)

/-- Python `str.upper()` (ASCII case mapping). -/
def toUpperStr (s : String) : String := String.mk (s.toList.map Char.toUpper)

/-- Helper for substring containment: does `hay` start with `needle`? -/
def startsWithChars : List Char → List Char → Bool
  | [], _ => true
  | _ :: _, [] => false
  | a :: as, b :: bs => a == b && startsWithChars as bs

/-- Helper: does `needle` occur as a contiguous run inside `hay`? -/
def subListAux : List Char → List Char → Bool
  | needle, [] => needle.isEmpty
  | needle, h :: t => startsWithChars needle (h :: t) || subListAux needle t

/-- Python `needle in hay` substring containment. -/
def containsSub (hay needle : String) : Bool := subListAux needle.toList hay.toList

/-! ## Text Normalizer (`clean_text`, main.py lines 333-342) -/

/-- One pass of `re.sub(r'\s+', ' ', text)`: each maximal whitespace run is
replaced by a single space.  `prevSpace` records whether the previous
character belonged to a whitespace run already emitted. -/
def collapseAux : Bool → List Char → List Char
  | _, [] => []
  | prevSpace, c :: rest =>
    if pyIsSpace c then
      if prevSpace then collapseAux true rest
      else ' ' :: collapseAux true rest
    else c :: collapseAux false rest

/-- Python `re.sub(r'\s+', ' ', text)`. -/
def collapseWs (l : List Char) : List Char := collapseAux false l

/-- Python `str.strip()`: drop leading and trailing whitespace. -/
def stripSpaces (l : List Char) : List Char :=
  ((l.dropWhile pyIsSpace).reverse.dropWhile pyIsSpace).reverse

/-- Python `re.sub(r'([a-z])([A-Z])', r'\1 \2', text)`: left-to-right scan; on a
match both characters are consumed (Python resumes after the match). -/
def camelFix : List Char → List Char
  | [] => []
  | [c] => [c]
  | a :: b :: rest =>
    if isAsciiLower a && isAsciiUpper b then a :: ' ' :: b :: camelFix rest
    else a :: camelFix (b :: rest)

/-- Python `re.sub(r'[^\x00-\x7F]+', '', text)`. -/
def removeNonAscii (l : List Char) : List Char := l.filter isAsciiChar

/-- Embeds `clean_text` (main.py 333-342): collapse whitespace and strip, repair
joined camel-case words, then delete every non-ASCII character. -/
def clean_text (text : String) : String :=
  String.mk (removeNonAscii (camelFix (stripSpaces (collapseWs text.toList))))

/-- All characters of `s` are 7-bit ASCII. -/
def allAscii (s : String) : Bool := s.toList.all isAsciiChar

/-- No two adjacent characters of the list are both whitespace. -/
def pairOk : List Char → Bool
  | a :: b :: rest => (!(pyIsSpace a && pyIsSpace b)) && pairOk (b :: rest)
  | _ => true

/-- Predicate: `s` contains no run of 2 or more consecutive whitespace characters. -/
def noDoubleWs (s : String) : Bool := pairOk s.toList

/-! ## Snippet Extractor (`extract_snippet`, main.py 344-382) -/

/-- Python `str.split()` with no argument: split on whitespace runs, no empty
pieces.  `cur` is the current word accumulated in reverse. -/
def splitWsGo : List Char → List Char → List String
  | [], cur => if cur.isEmpty then [] else [String.mk cur.reverse]
  | c :: rest, cur =>
    if pyIsSpace c then
      if cur.isEmpty then splitWsGo rest []
      else String.mk cur.reverse :: splitWsGo rest []
    else splitWsGo rest (c :: cur)

/-- Python `s.split()`. -/
def pySplit (s : String) : List String := splitWsGo s.toList []

/-- Python `len(query_words.intersection(sentence_words))`: the number of distinct
lowercase words of `sentence` that also occur in `qws`. -/
def snippetScore (qws : List String) (sentence : String) : Nat :=
  (((pySplit (toLowerStr sentence)).dedup).filter (fun w => qws.contains w)).length

/-- The scan of main.py 356-361: `best_sentence_index` starts at `-1`,
`max_score` at `0`; each sentence that scores strictly above the running
maximum becomes the new best. -/
def bestScanAux (qws : List String) : List String → Nat → Int → Int → Int
  | [], _, best, _ => best
  | s :: rest, i, best, maxScore =>
    let sc : Int := (snippetScore qws s : Nat)
    if maxScore < sc then bestScanAux qws rest (i + 1) (i : Int) sc
    else bestScanAux qws rest (i + 1) best maxScore

/-- The window construction of main.py 367-377: sentences
`[best - window, best + window]` clipped to bounds, joined with spaces,
with ellipsis markers when either end was clipped. -/
def windowSnippet (sentences : List String) (best window : Nat) : String :=
  let start := best - window
  let stop := min sentences.length (best + window + 1)
  let snippet := String.intercalate " " ((sentences.drop start).take (stop - start))
  let snippet := if 0 < start then "... " ++ snippet else snippet
  if stop < sentences.length then snippet ++ " ..." else snippet

/-- The body of `extract_snippet` once a non-empty sentence list exists. -/
def extract_snippet_core (sentences : List String) (query : String) (window : Nat) : String :=
  let qws := pySplit (toLowerStr query)
  let b := bestScanAux qws sentences 0 (-1) 0
  let best : Nat := if b = -1 then 0 else b.toNat
  windowSnippet sentences best window

/-- Embeds `extract_snippet` (main.py 344-382).  `tok` is the
`nltk.sent_tokenize` oracle; `none` models the tokenizer raising, which
the source catches, falling back to the first 500 characters, as it also
does when the tokenizer returns no sentences. -/
def extract_snippet (tok : String → Option (List String)) (full_text query : String) : String :=
  match tok full_text with
  | none => full_text.take 500
  | some [] => full_text.take 500
  | some (s :: rest) => extract_snippet_core (s :: rest) query 1

/-! ## Query Classifier (`classify_query`, main.py 214-288) -/

inductive Intent
  | internal
  | external
  | hybrid
deriving DecidableEq

def internal_keywords : List String :=
  ["globelink", "project alpha", "arr", "enterprise value", "nda", "loi",
   "debt schedule", "moic", "our deal", "our company", "our documents"]

def external_keywords : List String :=
  ["market cap", "stock price", "tesla", "apple", "crowdstrike", "nasdaq",
   "current", "today", "public company"]

def hybrid_indicators : List String :=
  ["compare", "comparison", "benchmark", "vs", "versus", "against",
   "market average", "industry average", "public companies", "competitors",
   "market multiples", "market valuation", "industry standard", "peer group",
   "how does our", "how does globelink", "relative to", "compared to"]

/-- Python `str.strip()` on a `String`. -/
def pyStrip (s : String) : String := String.mk (stripSpaces s.toList)

/-- The model-fallback tier (main.py 251-288): `resp` is the chat
completion's reply (`.error` models the call raising, which the source
catches and maps to `external`); an unrecognised reply also defaults to
`external`. -/
def llmClassify (resp : Except String String) : Intent :=
  match resp with
  | .error _ => .external
  | .ok r =>
    let c := toUpperStr (pyStrip r)
    if c = "INTERNAL" then .internal
    else if c = "EXTERNAL" then .external
    else if c = "HYBRID" then .hybrid
    else .external

/-- Embeds `classify_query` (main.py 214-288), instrumented: the second component
records whether the model fallback tier was consulted. -/
def classify_queryT (llm : Except String String) (question : String) : Intent × Bool :=
  let ql := toLowerStr question
  let hasInternal := internal_keywords.any (fun k => containsSub ql k)
  let hasExternal := external_keywords.any (fun k => containsSub ql k)
  let hasHybrid := hybrid_indicators.any (fun k => containsSub ql k)
  if hasInternal && (hasHybrid || hasExternal) then (.hybrid, false)
  else if hasExternal then (.external, false)
  else if hasInternal then (.internal, false)
  else (llmClassify llm, true)

/-- The intent component of `classify_queryT`. -/
def classify_query (llm : Except String String) (question : String) : Intent :=
  (classify_queryT llm question).1

/-! ## External Retriever (`search_web`, main.py 290-331) -/

/-- Outcome of the one HTTP call `search_web` makes: a 200 response whose
parsed body yields `content`, a non-200 response, or a raised transport
exception (whose message Python interpolates into the sentinel). -/
inductive WebOutcome
  | success (content : String)
  | httpError (code : Nat) (text : String)
  | exn (msg : String)
deriving DecidableEq

/-- The record `search_web` returns (`content`, `source`, `query`). -/
structure WebResult where
  content : String
  source : String
  query : String
deriving DecidableEq

/-- Embeds `search_web` (main.py 290-331): every outcome, including a failed call,
is returned as a populated record — failures become an `"Error"`-labelled
sentinel, never a raised exception and never a `None`. -/
def search_web (outcome : WebOutcome) (query : String) : WebResult :=
  match outcome with
  | .success c => ⟨c, "Perplexity AI", query⟩
  | .httpError _ _ => ⟨"Unable to fetch web results", "Error", query⟩
  | .exn e => ⟨"Web search failed: " ++ e, "Error", query⟩

/-! ## Internal Retriever (`search_internal_documents`, main.py 384-447) -/

/-- The `metadata` field of a search hit: either a string (with the oracle
outcome of `json.loads` on it — `none` models a parse failure or a parse
to a non-dict) or an already-structured dict. -/
inductive MetaVal
  | str (raw : String) (parsed : Option (List (String × String)))
  | dict (entries : List (String × String))
deriving DecidableEq

/-- One raw hit from the vector index.  `metadata` uses `.get` with a
default in the source, so a missing field is `none`; `content`, `id` and
`score` are accessed with `[...]`, so a missing field raises. -/
structure Hit where
  metadata : Option MetaVal
  content : Option String
  id : Option String
  score : Option Int
deriving DecidableEq

/-- Rendering of a Python dict for the `str(metadata)` fallback. -/
def reprDict (entries : List (String × String)) : String :=
  "\x7b" ++ String.intercalate ", "
    (entries.map (fun p => "\u0027" ++ p.1 ++ "\u0027: \u0027" ++ p.2 ++ "\u0027")) ++ "\x7d"

/-- Source-path resolution of main.py 398-411. -/
def resolveSource : Option MetaVal → String
  | none => "Unknown Document"
  | some (.str raw parsed) =>
    match parsed with
    | some d => ((d.lookup "source").getD raw)
    | none => raw
  | some (.dict entries) => ((entries.lookup "source").getD (reprDict entries))

/-- One EvidenceDocument as assembled at main.py 430-441. -/
structure Doc where
  title : String
  content : String
  snippet : String
  url : String
  score : Int
  sourceId : String
  queryUsed : String
deriving DecidableEq

/-- Python `re.search(r'AccountName=([^;]+)', conn)`: the first occurrence's
capture, read up to the next `;`. -/
def findAccountName (conn : String) : Option String :=
  let marker := "AccountName=".toList
  let rec go : List Char → Option String
    | [] => none
    | c :: rest =>
      if startsWithChars marker (c :: rest) then
        let tail := (c :: rest).drop marker.length
        let acct := tail.takeWhile (fun ch => ch ≠ ';')
        if acct.isEmpty then go rest else some (String.mk acct)
      else go rest
  go conn.toList

/-- Per-hit processing of the loop body at main.py 397-441.  An `.error`
models a raised exception (missing `content`/`id`/`score` key), which
escapes the loop into the function-level handler. -/
def processHit (tok : String → Option (List String)) (blobCfg : Option (String × String))
    (query : String) (h : Hit) : Except String Doc := do
  let sourcePath := resolveSource h.metadata
  let content ← match h.content with
    | some c => Except.ok c
    | none => Except.error "KeyError: content"
  let cleaned := clean_text content
  let snippet := extract_snippet tok cleaned query
  let hitId ← match h.id with
    | some i => Except.ok i
    | none => Except.error "KeyError: id"
  let score ← match h.score with
    | some s => Except.ok s
    | none => Except.error "KeyError: @search.score"
  let url :=
    match blobCfg with
    | some (conn, container) =>
      match findAccountName conn with
      | some acct =>
        "https://" ++ acct ++ ".blob.core.windows.net/" ++ container ++ "/" ++ sourcePath
      | none => "#" ++ hitId
    | none => "#" ++ hitId
  Except.ok ⟨sourcePath, content, snippet, url, score, hitId, query⟩

/-- The oracle environment of one `search_internal_documents` call:
embedding call outcome, vector search outcome, blob-storage configuration,
and the sentence tokenizer used by snippet extraction. -/
structure SearchEnv where
  embedR : Except String (List Int)
  searchR : Except String (List Hit)
  blobCfg : Option (String × String)
  tok : String → Option (List String)

/-- The result-accumulating loop of main.py 396-441: hits are processed in
order; the first raised exception aborts the whole loop. -/
def processHits (tok : String → Option (List String)) (blobCfg : Option (String × String))
    (query : String) : List Hit → Except String (List Doc)
  | [] => Except.ok []
  | h :: rest => do
    let d ← processHit tok blobCfg query h
    let ds ← processHits tok blobCfg query rest
    Except.ok (d :: ds)

/-- Embeds `search_internal_documents` (main.py 384-447): embed the query, run the
vector search, process every hit; any exception anywhere inside is caught
by the function-level handler, which returns the empty list. -/
def search_internal_documents (env : SearchEnv) (query : String) : List Doc :=
  match (do
    let _ ← env.embedR
    let hits ← env.searchR
    processHits env.tok env.blobCfg query hits : Except String (List Doc)) with
  | .ok docs => docs
  | .error _ => []

/-! ## Streaming Orchestrator (`stream_generator`, main.py 535-752) -/

/-- One entry of a `sources` event: `{title, content, score}` built from a
document's title, snippet and score (main.py 605-612, 646-653). -/
structure SrcEntry where
  title : String
  content : String
  score : Int
deriving DecidableEq

/-- One emitted stream record.  `done` is the terminal `[DONE]` sentinel. -/
inductive Event
  | status (s : String)
  | sources (entries : List SrcEntry)
  | content (s : String)
  | error (s : String)
  | done
deriving DecidableEq

/-- Process configuration interpolated into error explanations. -/
structure Config where
  deployment : String
  apiVersion : String

/-- Oracle outcomes for the awaited calls inside one request.  Each
`Except.error` models the corresponding `await` raising (reaching the
generator's top-level handler).  `chunks` are the completion stream's
deltas (`none` = a chunk without choices or content); `completionErr`
models the completion call or its iteration raising after the listed
chunks (`some` with `chunks = []` is a `create` call that raised);
`disconnect i` is the value of `await request.is_disconnected()` at the
check preceding chunk `i`. -/
structure Oracle where
  classifyR : Except String Intent
  searchInternalR : Except String (List Doc)
  searchWebR : Except String WebResult
  chunks : List (Option String)
  completionErr : Option String
  disconnect : Nat → Bool

/-- Result of running the generator body: the events yielded, an exception
escaping to the top-level handler (if any), and whether the streaming
completion call was made. -/
structure GenResult where
  events : List Event
  escaped : Option String
  completionCalled : Bool
deriving DecidableEq

/-- Embeds `error_context` (main.py 674-678). -/
def errorContext (ir : List Doc) (er : Option WebResult) : String :=
  match ir with
  | _ :: _ =>
    "Based on our internal documents, I found:\n" ++
      String.intercalate "\n" ((ir.take 3).map (fun d => "- " ++ d.title))
  | [] =>
    match er with
    | some _ => "Based on web search, I found some initial information."
    | none => "No specific information was retrieved before the error."

/-- The tiered user-facing explanation built in the completion-failure
handler (main.py 705-741), keyed on substrings of the raised message. -/
def errorResponse (cfg : Config) (em ctx : String) : String :=
  if containsSub em "DeploymentNotFound" then
    "I apologize, but I\u0027m having trouble accessing our AI model right now. Here\u0027s what I found that might help:\n\n"
    ++ ctx ++
    "\n\n**Technical Details:** The AI model deployment \u0027" ++ cfg.deployment ++
    "\u0027 was not found. Please verify:\n- The deployment name is correct in your .env file\n- The deployment is active in your Azure OpenAI resource\n- You\u0027re using the correct Azure OpenAI endpoint\n\n(Note: Our team has been notified and is working to restore full functionality.)"
  else if containsSub em "BadRequest" && containsSub (toLowerStr em) "api versions" then
    "I encountered a technical issue, but let me share what I found that might help:\n\n"
    ++ ctx ++
    "\n\n**Technical Details:** API version mismatch. Current version: " ++ cfg.apiVersion ++
    "\nPlease ensure this version is supported by your Azure OpenAI deployment.\n\n(Note: Our team has been notified about the configuration issue.)"
  else if containsSub em "Unauthorized" || containsSub em "401" then
    "Authentication failed with Azure OpenAI. Here\u0027s what I found before the error:\n\n"
    ++ ctx ++
    "\n\n**Technical Details:** Please verify your AZURE_OPENAI_KEY is correct and has proper permissions."
  else
    "I apologize for the technical difficulty. While our team investigates, here\u0027s what I found in our documents:\n\n"
    ++ ctx ++ "\n\n**Error:** " ++ em.take 200 ++ "..."

/-- The chunk-forwarding loop (main.py 697-703): before each chunk, check
disconnection and break; forward a `content` event for each chunk with a
non-empty delta.  The boolean reports whether the loop ran to the end of
the chunk list (so that a pending iterator exception would surface). -/
def forwardChunks (d : Nat → Bool) : Nat → List (Option String) → List Event × Bool
  | _, [] => ([], true)
  | i, c :: rest =>
    if d i then ([], false)
    else
      let r := forwardChunks d (i + 1) rest
      match c with
      | some s => if s = "" then r else (Event.content s :: r.1, r.2)
      | none => r

/-- The fixed `sources` event for the first three documents. -/
def sourcesEvent (ir : List Doc) : Event :=
  Event.sources ((ir.take 3).map (fun d => ⟨d.title, d.snippet, d.score⟩))

/-- Steps 4-6 of the orchestrator (main.py 673-746): compute
`error_context`, emit the generating status, run the completion stream
inside its own handler, then yield the `[DONE]` sentinel. -/
def completing (cfg : Config) (o : Oracle) (ir : List Doc) (er : Option WebResult)
    (evs : List Event) : GenResult :=
  let ctx := errorContext ir er
  let pre := evs ++ [Event.status "Generating response..."]
  let fc := forwardChunks o.disconnect 0 o.chunks
  match o.completionErr, fc.2 with
  | some em, true =>
    ⟨pre ++ fc.1 ++ [Event.content (errorResponse cfg em ctx), Event.done], none, true⟩
  | _, _ => ⟨pre ++ fc.1 ++ [Event.done], none, true⟩

/-- Step 3 of the orchestrator (main.py 565-671): per-intent handling of
the retrieval results — early exit with a fixed message when the result
set is judged empty, otherwise the `sources` event (when internal
documents exist) and the completion phase. -/
def afterSearch (cfg : Config) (o : Oracle) (qtype : Intent) (ir : List Doc)
    (er : Option WebResult) (evs : List Event) : GenResult :=
  match qtype with
  | .external =>
    match er with
    | none =>
      ⟨evs ++ [Event.content "I couldn\u0027t find current information about your query. Please try rephrasing your question.",
               Event.done], none, false⟩
    | some _ => completing cfg o ir er evs
  | .hybrid =>
    if ir = [] ∧ er = none then
      ⟨evs ++ [Event.content "I couldn\u0027t find relevant information in our documents or current market data.",
               Event.done], none, false⟩
    else
      let evs2 := if ir = [] then evs else evs ++ [sourcesEvent ir]
      completing cfg o ir er evs2
  | .internal =>
    if ir = [] then
      ⟨evs ++ [Event.content "I couldn\u0027t find any relevant information in our internal documents to answer your question.",
               Event.done], none, false⟩
    else completing cfg o ir er (evs ++ [sourcesEvent ir])

/-- The generator body (main.py 536-746): the receipt status, the classify
call, the per-intent retrieval calls with their statuses, then
`afterSearch`.  An `.error` oracle outcome models that `await` raising,
escaping with the events yielded so far. -/
def streamBody (cfg : Config) (o : Oracle) : GenResult :=
  let e0 := Event.status "Confirming receipt, working on it now."
  match o.classifyR with
  | .error e => ⟨[e0], some e, false⟩
  | .ok qtype =>
    match qtype with
    | .external =>
      let e1 := Event.status "Searching the web for current information..."
      match o.searchWebR with
      | .error e => ⟨[e0, e1], some e, false⟩
      | .ok w => afterSearch cfg o .external [] (some w) [e0, e1]
    | .hybrid =>
      let e1 := Event.status "Searching internal documents..."
      match o.searchInternalR with
      | .error e => ⟨[e0, e1], some e, false⟩
      | .ok ir =>
        let e2 := Event.status "Searching the web for market data..."
        match o.searchWebR with
        | .error e => ⟨[e0, e1, e2], some e, false⟩
        | .ok w => afterSearch cfg o .hybrid ir (some w) [e0, e1, e2]
    | .internal =>
      let e1 := Event.status "Searching internal documents..."
      match o.searchInternalR with
      | .error e => ⟨[e0, e1], some e, false⟩
      | .ok ir => afterSearch cfg o .internal ir none [e0, e1]

/-- Embeds `stream_generator` (main.py 535-752): the generator body wrapped in the
top-level handler, which reports an escaped exception as an `error` event
and still yields the `[DONE]` sentinel. -/
def stream_generator (cfg : Config) (o : Oracle) : List Event :=
  let r := streamBody cfg o
  match r.escaped with
  | none => r.events
  | some e => r.events ++ [Event.error ("An unexpected error occurred: " ++ e), Event.done]

/-! ## Verification vocabulary -/

/-- Recogniser for `sources` events. -/
def isSourcesE : Event → Bool
  | .sources _ => true
  | _ => false

/-- The stream ends with the `done` sentinel and contains it exactly once. -/
def EndsOnce (s : List Event) : Prop :=
  ∃ p, s = p ++ [Event.done] ∧ Event.done ∉ p

/-- The head of the character list, if any, is not whitespace. -/
def headNS : List Char → Prop
  | [] => True
  | c :: _ => pyIsSpace c = false

/-- The adjacency relation behind `noDoubleWs`. -/
def NotWsPair (a b : Char) : Prop := ¬(pyIsSpace a = true ∧ pyIsSpace b = true)

/-! ## Concrete fixtures for counterexamples and witnesses -/

/-- A fixed process configuration for concrete evaluations. -/
def cfgW : Config := ⟨"gpt-4o", "2024-02-15-preview"⟩

/-- A caller that never disconnects. -/
def noDisconnect : Nat → Bool := fun _ => false

/-- Oracle of a request classified `internal` whose internal search found
nothing. -/
def oracleInternalEmpty : Oracle :=
  ⟨Except.ok Intent.internal, Except.ok [], Except.ok ⟨"", "", ""⟩, [], none, noDisconnect⟩

/-- Oracle of a request classified `external` whose web search failed with
an HTTP 500 and therefore returned the `"Error"`-labelled sentinel. -/
def oracleExternalFailedWeb : Oracle :=
  ⟨Except.ok Intent.external, Except.ok [],
   Except.ok (search_web (WebOutcome.httpError 500 "Internal Server Error")
     "What is the market cap of Tesla?"),
   [some "hello"], none, noDisconnect⟩

/-- A sample internal evidence document. -/
def docW : Doc :=
  ⟨"deal_memo.pdf", "GlobeLink ARR grew.", "GlobeLink ARR grew.", "#doc1", 3, "doc1", "arr"⟩

/-- Oracle of a request classified `internal` with one internal hit and a
two-delta completion stream. -/
def oracleInternalDoc : Oracle :=
  ⟨Except.ok Intent.internal, Except.ok [docW], Except.ok ⟨"", "", ""⟩,
   [some "GlobeLink ARR", none, some ""], none, noDisconnect⟩

/-- A search environment whose embedding call raises. -/
def envEmbedFail : SearchEnv :=
  ⟨Except.error "embedding timeout", Except.ok [], none, fun _ => none⟩

/-! # Theorems -/

/-- C7: `extract_snippet` is total by construction (it is a Lean function
returning a `String` for every input, including empty strings), and
whenever the sentence tokenizer raises or produces no sentences, the
result is exactly the first 500 characters of the input text. -/
theorem extract_snippet_total_fallback (tok : String → Option (List String))
    (text query : String) (h : tok text = none ∨ tok text = some []) :
    extract_snippet tok text query = text.take 500 := by
  rcases h with h | h <;> simp [extract_snippet, h]

theorem extract_snippet_total_fallback_witness :
    extract_snippet (fun _ => none) "" "" = ("" : String).take 500 ∧
    extract_snippet (fun _ => some []) "hello world" "w" = ("hello world" : String).take 500 :=
  ⟨extract_snippet_total_fallback (fun _ => none) "" "" (Or.inl rfl),
   extract_snippet_total_fallback (fun _ => some []) "hello world" "w" (Or.inr rfl)⟩

/-- C8: the classifier's lexical tiers decide the three spec examples with
no model fallback (the instrumentation flag is `false`, and the result is
the same for every model oracle `llm`): the comparison question is
`hybrid`, the market-cap question is `external`, and the ARR question is
`internal`. -/
theorem classify_lexical_examples (llm : Except String String) :
    classify_queryT llm "How does GlobeLink\u0027s ARR compare to public SaaS companies?"
      = (Intent.hybrid, false) ∧
    classify_queryT llm "What is CrowdStrike\u0027s market cap?" = (Intent.external, false) ∧
    classify_queryT llm "What was the ARR for GlobeLink?" = (Intent.internal, false) :=
  ⟨rfl, rfl, rfl⟩

/-- C10: whenever the lowercased question contains an internal or an
external keyword, the classifier decides lexically — the model-fallback
flag is `false` and the returned intent is identical for any two model
oracles (two runs agree). -/
theorem classify_keyword_no_model_call (q : String) (llm1 llm2 : Except String String)
    (h : internal_keywords.any (fun k => containsSub (toLowerStr q) k) = true ∨
         external_keywords.any (fun k => containsSub (toLowerStr q) k) = true) :
    (classify_queryT llm1 q).2 = false ∧ classify_queryT llm1 q = classify_queryT llm2 q := by
  cases hI : internal_keywords.any (fun k => containsSub (toLowerStr q) k) with
  | false =>
    cases hE : external_keywords.any (fun k => containsSub (toLowerStr q) k) with
    | false => rw [hI, hE] at h; simp at h
    | true =>
      cases hH : hybrid_indicators.any (fun k => containsSub (toLowerStr q) k) with
      | false => simp [classify_queryT, hI, hE, hH]
      | true => simp [classify_queryT, hI, hE, hH]
  | true =>
    cases hE : external_keywords.any (fun k => containsSub (toLowerStr q) k) with
    | false =>
      cases hH : hybrid_indicators.any (fun k => containsSub (toLowerStr q) k) with
      | false => simp [classify_queryT, hI, hE, hH]
      | true => simp [classify_queryT, hI, hE, hH]
    | true =>
      cases hH : hybrid_indicators.any (fun k => containsSub (toLowerStr q) k) with
      | false => simp [classify_queryT, hI, hE, hH]
      | true => simp [classify_queryT, hI, hE, hH]

theorem classify_keyword_no_model_call_witness :
    (classify_queryT (Except.ok "HYBRID") "What was the ARR for GlobeLink?").2 = false ∧
    classify_queryT (Except.ok "HYBRID") "What was the ARR for GlobeLink?" =
      classify_queryT (Except.error "provider down") "What was the ARR for GlobeLink?" :=
  classify_keyword_no_model_call "What was the ARR for GlobeLink?"
    (Except.ok "HYBRID") (Except.error "provider down") (Or.inl (by decide))

/-- Reduction of `Except` bind on a success reduces to the continuation. -/
theorem exbind_ok {α β : Type} (a : α) (f : α → Except String β) :
    (Except.ok a >>= f) = f a := rfl

/-- Reduction of `Except` bind on a failure short-circuits. -/
theorem exbind_error {α β : Type} (e : String) (f : α → Except String β) :
    ((Except.error e : Except String α) >>= f) = Except.error e := rfl

/-- If processing any hit of the list raises, the whole loop raises. -/
theorem processHits_error (tok : String → Option (List String))
    (blob : Option (String × String)) (q : String) :
    ∀ (hits : List Hit) (hit : Hit), hit ∈ hits →
    ∀ e, processHit tok blob q hit = Except.error e →
    ∃ e2, processHits tok blob q hits = Except.error e2 := by
  intro hits
  induction hits with
  | nil => intro hit hmem; exact absurd hmem (List.not_mem_nil hit)
  | cons a t ih =>
    intro hit hmem e hfail
    rcases List.mem_cons.mp hmem with rfl | hmem
    · exact ⟨e, by simp [processHits, hfail, exbind_error]⟩
    · cases hA : processHit tok blob q a with
      | error e3 => exact ⟨e3, by simp [processHits, hA, exbind_error]⟩
      | ok d =>
        obtain ⟨e2, h2⟩ := ih hit hmem e hfail
        exact ⟨e2, by simp [processHits, hA, h2, exbind_ok, exbind_error]⟩

/-- C9: an exception raised anywhere inside the internal retrieval — the
embedding call, the vector search call, or the processing of any hit —
is swallowed by the function-level handler: `search_internal_documents`
returns the empty list instead of propagating. -/
theorem search_internal_swallows_exceptions (env : SearchEnv) (q : String)
    (h : (∃ e, env.embedR = Except.error e) ∨
         (∃ e, env.searchR = Except.error e) ∨
         (∃ hits hit e, env.searchR = Except.ok hits ∧ hit ∈ hits ∧
            processHit env.tok env.blobCfg q hit = Except.error e)) :
    search_internal_documents env q = [] := by
  rcases h with ⟨e, he⟩ | ⟨e, he⟩ | ⟨hits, hit, e, hs, hmem, hfail⟩
  · simp [search_internal_documents, he, exbind_error]
  · cases hemb : env.embedR with
    | error e2 => simp [search_internal_documents, hemb, exbind_error]
    | ok v => simp [search_internal_documents, hemb, he, exbind_ok, exbind_error]
  · cases hemb : env.embedR with
    | error e2 => simp [search_internal_documents, hemb, exbind_error]
    | ok v =>
      obtain ⟨e2, h2⟩ := processHits_error env.tok env.blobCfg q hits hit hmem e hfail
      simp [search_internal_documents, hemb, hs, h2, exbind_ok, exbind_error]

theorem search_internal_swallows_exceptions_witness :
    search_internal_documents envEmbedFail "What was the ARR for GlobeLink?" = [] :=
  search_internal_swallows_exceptions envEmbedFail "What was the ARR for GlobeLink?"
    (Or.inl ⟨"embedding timeout", rfl⟩)

/-! ## Lemmas about the text normalizer -/

theorem lower_not_space (c : Char) (h : isAsciiLower c = true) : pyIsSpace c = false := by
  simp only [isAsciiLower, Bool.and_eq_true, decide_eq_true_eq] at h
  cases hws : pyIsSpace c with
  | false => rfl
  | true =>
    exfalso
    simp only [pyIsSpace, Bool.or_eq_true, Bool.and_eq_true, decide_eq_true_eq,
      beq_iff_eq] at hws
    omega

theorem upper_not_space (c : Char) (h : isAsciiUpper c = true) : pyIsSpace c = false := by
  simp only [isAsciiUpper, Bool.and_eq_true, decide_eq_true_eq] at h
  cases hws : pyIsSpace c with
  | false => rfl
  | true =>
    exfalso
    simp only [pyIsSpace, Bool.or_eq_true, Bool.and_eq_true, decide_eq_true_eq,
      beq_iff_eq] at hws
    omega

theorem pairOk_tail (a : Char) (l : List Char) (h : pairOk (a :: l) = true) :
    pairOk l = true := by
  cases l with
  | nil => rfl
  | cons b t =>
    simp only [pairOk, Bool.and_eq_true] at h
    exact h.2

theorem pairOk_cons (c : Char) (l : List Char) (hl : pairOk l = true)
    (h : pyIsSpace c = false ∨ headNS l) : pairOk (c :: l) = true := by
  cases l with
  | nil => rfl
  | cons b t =>
    simp only [pairOk, Bool.and_eq_true]
    refine ⟨?_, hl⟩
    rcases h with h | h
    · simp [h]
    · simp only [headNS] at h
      simp [h]

theorem collapseAux_pairOk : ∀ (l : List Char) (b : Bool),
    pairOk (collapseAux b l) = true ∧ (b = true → headNS (collapseAux b l)) := by
  intro l
  induction l with
  | nil => intro b; exact ⟨rfl, fun _ => trivial⟩
  | cons c rest ih =>
    intro b
    cases hc : pyIsSpace c with
    | true =>
      cases b with
      | true =>
        simp only [collapseAux, hc, if_true]
        exact ⟨(ih true).1, fun _ => (ih true).2 rfl⟩
      | false =>
        simp only [collapseAux, hc, if_true, if_false]
        constructor
        · exact pairOk_cons ' ' _ (ih true).1 (Or.inr ((ih true).2 rfl))
        · intro hfalse; exact absurd hfalse (by simp)
    | false =>
      simp only [collapseAux, hc]
      constructor
      · exact pairOk_cons c _ (ih false).1 (Or.inl hc)
      · intro _; exact hc

theorem pairOk_iff_chain : ∀ l : List Char, pairOk l = true ↔ l.Chain' NotWsPair
  | [] => by simp [pairOk]
  | [c] => by simp [pairOk]
  | a :: b :: t => by
    simp only [pairOk, Bool.and_eq_true, List.chain'_cons, pairOk_iff_chain (b :: t),
      NotWsPair, Bool.not_eq_true']
    constructor
    · rintro ⟨h1, h2⟩
      refine ⟨?_, h2⟩
      intro ⟨ha, hb⟩
      rw [ha, hb] at h1
      simp at h1
    · rintro ⟨h1, h2⟩
      refine ⟨?_, h2⟩
      cases hA : pyIsSpace a <;> cases hB : pyIsSpace b <;> simp_all

theorem pairOk_strip (l : List Char) (h : pairOk l = true) :
    pairOk (stripSpaces l) = true := by
  rw [pairOk_iff_chain] at h ⊢
  have hsym : ∀ x y, NotWsPair x y → (flip NotWsPair) x y := by
    intro x y hxy
    simp only [flip, NotWsPair] at *
    tauto
  have hsym2 : ∀ x y, (flip NotWsPair) x y → NotWsPair x y := by
    intro x y hxy
    simp only [flip, NotWsPair] at *
    tauto
  have h1 : (l.dropWhile pyIsSpace).Chain' NotWsPair :=
    h.suffix (List.dropWhile_suffix _)
  have h2 : ((l.dropWhile pyIsSpace).reverse).Chain' NotWsPair := by
    rw [List.chain'_reverse]
    exact h1.imp hsym
  have h3 : (((l.dropWhile pyIsSpace).reverse.dropWhile pyIsSpace)).Chain' NotWsPair :=
    h2.suffix (List.dropWhile_suffix _)
  rw [stripSpaces, List.chain'_reverse]
  exact h3.imp hsym

theorem camelFix_cons_head (a : Char) (l : List Char) :
    ∃ t, camelFix (a :: l) = a :: t := by
  cases l with
  | nil => exact ⟨[], rfl⟩
  | cons b t =>
    simp only [camelFix]
    split
    · exact ⟨_, rfl⟩
    · exact ⟨_, rfl⟩

theorem camelFix_pairOk : ∀ l : List Char, pairOk l = true → pairOk (camelFix l) = true := by
  intro l
  induction l using camelFix.induct with
  | case1 => intro _; rfl
  | case2 c => intro _; rfl
  | case3 a b rest hcond ih =>
    intro h
    simp only [camelFix, hcond, if_true]
    have hcond2 : isAsciiLower a = true ∧ isAsciiUpper b = true := by
      rw [Bool.and_eq_true] at hcond; exact hcond
    have hla : pyIsSpace a = false := lower_not_space a hcond2.1
    have hub : pyIsSpace b = false := upper_not_space b hcond2.2
    have hrest : pairOk rest = true := pairOk_tail b _ (pairOk_tail a _ h)
    have p1 : pairOk (b :: camelFix rest) = true :=
      pairOk_cons b _ (ih hrest) (Or.inl hub)
    have p2 : pairOk (' ' :: b :: camelFix rest) = true :=
      pairOk_cons ' ' _ p1 (Or.inr hub)
    exact pairOk_cons a _ p2 (Or.inl hla)
  | case4 a b rest hcond ih =>
    intro h
    simp only [camelFix, hcond, if_false]
    have hbt : pairOk (b :: rest) = true := pairOk_tail a _ h
    obtain ⟨t, ht⟩ := camelFix_cons_head b rest
    apply pairOk_cons a _ (ih hbt)
    cases hwa : pyIsSpace a with
    | false => exact Or.inl rfl
    | true =>
      have hwb : pyIsSpace b = false := by
        simp only [pairOk, Bool.and_eq_true, Bool.not_eq_true'] at h
        have := h.1
        rw [hwa] at this
        simpa using this
      refine Or.inr ?_
      rw [ht]
      exact hwb

theorem mem_collapseAux : ∀ (l : List Char) (b : Bool) (c : Char),
    c ∈ collapseAux b l → c ∈ l ∨ c = ' ' := by
  intro l
  induction l with
  | nil => intro b c h; simp [collapseAux] at h
  | cons d rest ih =>
    intro b c h
    cases hd : pyIsSpace d with
    | true =>
      cases b with
      | true =>
        simp only [collapseAux, hd, if_true] at h
        rcases ih true c h with h | h
        · exact Or.inl (List.mem_cons_of_mem _ h)
        · exact Or.inr h
      | false =>
        simp only [collapseAux, hd, if_true, if_false] at h
        rcases List.mem_cons.mp h with rfl | h
        · exact Or.inr rfl
        · rcases ih true c h with h | h
          · exact Or.inl (List.mem_cons_of_mem _ h)
          · exact Or.inr h
    | false =>
      simp only [collapseAux, hd] at h
      rcases List.mem_cons.mp h with rfl | h
      · exact Or.inl (List.mem_cons_self _ _)
      · rcases ih false c h with h | h
        · exact Or.inl (List.mem_cons_of_mem _ h)
        · exact Or.inr h

theorem mem_stripSpaces (l : List Char) (c : Char) (h : c ∈ stripSpaces l) : c ∈ l := by
  simp only [stripSpaces, List.mem_reverse] at h
  have h1 : c ∈ (l.dropWhile pyIsSpace).reverse :=
    (List.dropWhile_suffix _).subset h
  rw [List.mem_reverse] at h1
  exact (List.dropWhile_suffix _).subset h1

theorem mem_camelFix : ∀ (l : List Char) (c : Char), c ∈ camelFix l → c ∈ l ∨ c = ' ' := by
  intro l
  induction l using camelFix.induct with
  | case1 => intro c h; simp [camelFix] at h
  | case2 d => intro c h; simp only [camelFix] at h; exact Or.inl h
  | case3 a b rest hcond ih =>
    intro c h
    simp only [camelFix, hcond, if_true] at h
    rcases List.mem_cons.mp h with rfl | h
    · exact Or.inl (List.mem_cons_self _ _)
    rcases List.mem_cons.mp h with rfl | h
    · exact Or.inr rfl
    rcases List.mem_cons.mp h with rfl | h
    · exact Or.inl (List.mem_cons_of_mem _ (List.mem_cons_self _ _))
    rcases ih c h with h | h
    · exact Or.inl (List.mem_cons_of_mem _ (List.mem_cons_of_mem _ h))
    · exact Or.inr h
  | case4 a b rest hcond ih =>
    intro c h
    simp only [camelFix, hcond, if_false] at h
    rcases List.mem_cons.mp h with rfl | h
    · exact Or.inl (List.mem_cons_self _ _)
    rcases ih c h with h | h
    · exact Or.inl (List.mem_cons_of_mem _ h)
    · exact Or.inr h

theorem clean_text_allAscii (s : String) : allAscii (clean_text s) = true := by
  show (List.filter isAsciiChar (camelFix (stripSpaces (collapseWs s.toList)))).all
    isAsciiChar = true
  rw [List.all_eq_true]
  intro c hc
  exact (List.mem_filter.mp hc).2

theorem clean_text_noDoubleWs (s : String) (h : allAscii s = true) :
    noDoubleWs (clean_text s) = true := by
  have hC := (collapseAux_pairOk s.toList false).1
  have hS := pairOk_strip _ hC
  have hM := camelFix_pairOk _ hS
  have hid : (camelFix (stripSpaces (collapseWs s.toList))).filter isAsciiChar
           = camelFix (stripSpaces (collapseWs s.toList)) := by
    apply List.filter_eq_self.mpr
    intro c hc
    rcases mem_camelFix _ c hc with hc2 | rfl
    · rcases mem_collapseAux s.toList false c (mem_stripSpaces _ c hc2) with hc3 | rfl
      · rw [allAscii, List.all_eq_true] at h
        exact h c hc3
      · decide
    · decide
  show pairOk (List.filter isAsciiChar (camelFix (stripSpaces (collapseWs s.toList)))) = true
  rw [hid]
  exact hM

/-- C4 fails as stated: on the non-empty input `"a é b"`, deleting the
non-ASCII character merges the two spaces around it, so the normalizer's
output `"a  b"` contains a run of two whitespace characters. -/
theorem clean_text_double_ws_counterexample :
    ("a é b" : String) ≠ "" ∧ clean_text "a é b" = "a  b" ∧
    noDoubleWs (clean_text "a é b") = false :=
  ⟨by decide, by decide, by decide⟩

/-- C4 amended: for every non-empty input all of whose characters are
7-bit ASCII, the normalizer's output contains no character outside 7-bit
ASCII and no run of 2 or more consecutive whitespace characters.  (For
inputs with non-ASCII characters, deleting a non-ASCII run can join the
whitespace on its two sides, producing a whitespace run.) -/
theorem clean_text_ascii_no_double_ws (s : String) (_h0 : s ≠ "") (h : allAscii s = true) :
    allAscii (clean_text s) = true ∧ noDoubleWs (clean_text s) = true :=
  ⟨clean_text_allAscii s, clean_text_noDoubleWs s h⟩

theorem clean_text_ascii_no_double_ws_witness :
    allAscii (clean_text "GlobeLink  ARR\n\tgrew 40%") = true ∧
    noDoubleWs (clean_text "GlobeLink  ARR\n\tgrew 40%") = true :=
  clean_text_ascii_no_double_ws "GlobeLink  ARR\n\tgrew 40%" (by decide) (by decide)

/-! ## Lemmas about the streaming orchestrator -/

theorem forwardChunks_content (d : Nat → Bool) :
    ∀ (i : Nat) (cs : List (Option String)) (e : Event),
      e ∈ (forwardChunks d i cs).1 → ∃ s, e = Event.content s := by
  intro i cs
  induction cs generalizing i with
  | nil => intro e he; simp [forwardChunks] at he
  | cons c rest ih =>
    intro e he
    simp only [forwardChunks] at he
    by_cases hd : d i = true
    · simp [hd] at he
    · rw [if_neg hd] at he
      cases c with
      | none => exact ih (i + 1) e he
      | some s =>
        dsimp only at he
        by_cases hs : s = ""
        · rw [if_pos hs] at he; exact ih (i + 1) e he
        · rw [if_neg hs] at he
          rcases List.mem_cons.mp he with rfl | he
          · exact ⟨s, rfl⟩
          · exact ih (i + 1) e he

theorem completing_shape (cfg : Config) (o : Oracle) (ir : List Doc) (er : Option WebResult)
    (evs : List Event) :
    ∃ mid, (completing cfg o ir er evs).events
        = evs ++ Event.status "Generating response..." :: (mid ++ [Event.done])
      ∧ (∀ e ∈ mid, ∃ s, e = Event.content s)
      ∧ (completing cfg o ir er evs).escaped = none
      ∧ (completing cfg o ir er evs).completionCalled = true := by
  rcases hce : o.completionErr with _ | em
  · refine ⟨(forwardChunks o.disconnect 0 o.chunks).1, ?_, ?_, ?_, ?_⟩
    · simp [completing, hce]
    · intro e he; exact forwardChunks_content _ _ _ e he
    · simp [completing, hce]
    · simp [completing, hce]
  · cases hfc : (forwardChunks o.disconnect 0 o.chunks).2 with
    | false =>
      refine ⟨(forwardChunks o.disconnect 0 o.chunks).1, ?_, ?_, ?_, ?_⟩
      · simp [completing, hce, hfc]
      · intro e he; exact forwardChunks_content _ _ _ e he
      · simp [completing, hce, hfc]
      · simp [completing, hce, hfc]
    | true =>
      refine ⟨(forwardChunks o.disconnect 0 o.chunks).1
          ++ [Event.content (errorResponse cfg em (errorContext ir er))], ?_, ?_, ?_, ?_⟩
      · simp [completing, hce, hfc]
      · intro e he
        rcases List.mem_append.mp he with he | he
        · exact forwardChunks_content _ _ _ e he
        · simp at he; exact ⟨_, he⟩
      · simp [completing, hce, hfc]
      · simp [completing, hce, hfc]

theorem completing_endsOnce (cfg : Config) (o : Oracle) (ir : List Doc)
    (er : Option WebResult) (evs2 : List Event) (hd : Event.done ∉ evs2) :
    (completing cfg o ir er evs2).escaped = none ∧
    EndsOnce (completing cfg o ir er evs2).events := by
  obtain ⟨mid, hev, hmid, hesc, -⟩ := completing_shape cfg o ir er evs2
  refine ⟨hesc, evs2 ++ Event.status "Generating response..." :: mid, ?_, ?_⟩
  · rw [hev]
    simp
  · intro hmem
    rcases List.mem_append.mp hmem with h | h
    · exact hd h
    · rcases List.mem_cons.mp h with h | h
      · exact Event.noConfusion h
      · obtain ⟨s, hs⟩ := hmid _ h
        exact Event.noConfusion hs

theorem afterSearch_spec (cfg : Config) (o : Oracle) (qt : Intent) (ir : List Doc)
    (er : Option WebResult) (evs : List Event) (hevs : Event.done ∉ evs) :
    (afterSearch cfg o qt ir er evs).escaped = none ∧
    EndsOnce (afterSearch cfg o qt ir er evs).events := by
  have hEarly : ∀ msg : String,
      Event.done ∉ evs ++ [Event.content msg] := by
    intro msg hmem
    rcases List.mem_append.mp hmem with h | h
    · exact hevs h
    · simp at h
  cases qt with
  | external =>
    cases er with
    | none =>
      refine ⟨rfl, evs ++ [Event.content "I couldn\u0027t find current information about your query. Please try rephrasing your question."], ?_, hEarly _⟩
      simp [afterSearch]
    | some w => exact completing_endsOnce cfg o ir (some w) evs hevs
  | hybrid =>
    by_cases hcond : ir = [] ∧ er = none
    · refine ⟨?_, evs ++ [Event.content "I couldn\u0027t find relevant information in our documents or current market data."], ?_, hEarly _⟩
      · simp [afterSearch, hcond]
      · simp [afterSearch, hcond]
    · simp only [afterSearch, if_neg hcond]
      by_cases hir : ir = []
      · simp only [if_pos hir]
        exact completing_endsOnce cfg o ir er evs hevs
      · simp only [if_neg hir]
        apply completing_endsOnce
        intro hmem
        rcases List.mem_append.mp hmem with h | h
        · exact hevs h
        · simp [sourcesEvent] at h
  | internal =>
    by_cases hir : ir = []
    · refine ⟨?_, evs ++ [Event.content "I couldn\u0027t find any relevant information in our internal documents to answer your question."], ?_, hEarly _⟩
      · simp [afterSearch, hir]
      · simp [afterSearch, hir]
    · simp only [afterSearch, if_neg hir]
      apply completing_endsOnce
      intro hmem
      rcases List.mem_append.mp hmem with h | h
      · exact hevs h
      · simp [sourcesEvent] at h

theorem streamBody_spec (cfg : Config) (o : Oracle) :
    ((streamBody cfg o).escaped = none ∧ EndsOnce (streamBody cfg o).events) ∨
    (∃ e, (streamBody cfg o).escaped = some e ∧ Event.done ∉ (streamBody cfg o).events) := by
  rcases hc : o.classifyR with e | qtype
  · right
    refine ⟨e, ?_, ?_⟩ <;> simp [streamBody, hc]
  · cases qtype with
    | external =>
      rcases hw : o.searchWebR with e | w
      · right
        refine ⟨e, ?_, ?_⟩ <;> simp [streamBody, hc, hw]
      · left
        have h := afterSearch_spec cfg o .external []
          (some w) [Event.status "Confirming receipt, working on it now.",
                    Event.status "Searching the web for current information..."] (by simp)
        simpa [streamBody, hc, hw] using h
    | hybrid =>
      rcases hi : o.searchInternalR with e | ir
      · right
        refine ⟨e, ?_, ?_⟩ <;> simp [streamBody, hc, hi]
      · rcases hw : o.searchWebR with e | w
        · right
          refine ⟨e, ?_, ?_⟩ <;> simp [streamBody, hc, hi, hw]
        · left
          have h := afterSearch_spec cfg o .hybrid ir
            (some w) [Event.status "Confirming receipt, working on it now.",
                      Event.status "Searching internal documents...",
                      Event.status "Searching the web for market data..."] (by simp)
          simpa [streamBody, hc, hi, hw] using h
    | internal =>
      rcases hi : o.searchInternalR with e | ir
      · right
        refine ⟨e, ?_, ?_⟩ <;> simp [streamBody, hc, hi]
      · left
        have h := afterSearch_spec cfg o .internal ir
          none [Event.status "Confirming receipt, working on it now.",
                Event.status "Searching internal documents..."] (by simp)
        simpa [streamBody, hc, hi] using h

/-- C1: on every code path — success, empty retrieval, completion-call
failure, and an unexpected exception escaping the pipeline — the emitted
event stream ends with the terminal `done` sentinel, which occurs exactly
once (hence always last). -/
theorem stream_always_single_done (cfg : Config) (o : Oracle) :
    (stream_generator cfg o).getLast? = some Event.done ∧
    (stream_generator cfg o).count Event.done = 1 := by
  have hEO : EndsOnce (stream_generator cfg o) := by
    rcases streamBody_spec cfg o with ⟨h1, p, hp, hnp⟩ | ⟨e, h1, h2⟩
    · simp only [stream_generator]
      rw [h1]
      exact ⟨p, hp, hnp⟩
    · simp only [stream_generator]
      rw [h1]
      refine ⟨(streamBody cfg o).events
        ++ [Event.error ("An unexpected error occurred: " ++ e)], by simp, ?_⟩
      intro hmem
      rcases List.mem_append.mp hmem with h | h
      · exact h2 h
      · simp at h
  obtain ⟨p, hp, hnp⟩ := hEO
  rw [hp]
  constructor
  · simp
  · rw [List.count_append]
    rw [List.count_eq_zero_of_not_mem hnp]
    simp

/-- C2 fails as stated: a request classified `internal` whose internal
search returns zero hits emits two `status` events (the receipt
confirmation and the searching notice) before the "nothing found"
`content` event, so the stream is never a single `status` followed by the
`content` and the sentinel. -/
theorem internal_empty_two_events_counterexample :
    ¬ ∃ st, stream_generator cfgW oracleInternalEmpty =
      [Event.status st,
       Event.content "I couldn\u0027t find any relevant information in our internal documents to answer your question.",
       Event.done] := by
  rintro ⟨st, h⟩
  have hl : (stream_generator cfgW oracleInternalEmpty).length = 3 := by rw [h]; rfl
  have h4 : (4 : Nat) = 3 := hl
  simp at h4

/-- C2 amended: a request classified `internal` whose internal search
returns zero hits emits exactly three events — two `status` events
followed by one `content` event carrying the fixed "nothing found"
message — then the `done` sentinel, with no `sources` event and no
completion call made. -/
theorem internal_empty_stream (cfg : Config) (o : Oracle)
    (h1 : o.classifyR = Except.ok Intent.internal)
    (h2 : o.searchInternalR = Except.ok []) :
    stream_generator cfg o =
      [Event.status "Confirming receipt, working on it now.",
       Event.status "Searching internal documents...",
       Event.content "I couldn\u0027t find any relevant information in our internal documents to answer your question.",
       Event.done] ∧
    (streamBody cfg o).completionCalled = false := by
  constructor <;> simp [stream_generator, streamBody, h1, h2, afterSearch]

theorem internal_empty_stream_witness :
    stream_generator cfgW oracleInternalEmpty =
      [Event.status "Confirming receipt, working on it now.",
       Event.status "Searching internal documents...",
       Event.content "I couldn\u0027t find any relevant information in our internal documents to answer your question.",
       Event.done] ∧
    (streamBody cfgW oracleInternalEmpty).completionCalled = false :=
  internal_empty_stream cfgW oracleInternalEmpty rfl rfl

/-- C3 fails as stated: `search_web` returns a populated record even on
failure (the `"Error"`-labelled sentinel), so on an `external` request
whose web search failed the orchestrator does not emit the fixed "nothing
found" message and does make a completion call. -/
theorem external_failed_web_counterexample :
    (search_web (WebOutcome.httpError 500 "Internal Server Error")
      "What is the market cap of Tesla?").source = "Error" ∧
    oracleExternalFailedWeb.classifyR = Except.ok Intent.external ∧
    (streamBody cfgW oracleExternalFailedWeb).completionCalled = true ∧
    Event.content "I couldn\u0027t find current information about your query. Please try rephrasing your question."
      ∉ stream_generator cfgW oracleExternalFailedWeb := by
  refine ⟨rfl, rfl, rfl, ?_⟩
  decide

/-- C3 amended: for an `external` request — and for a `hybrid` request
whose internal search returned no documents — the web-search call always
returns a populated result record (on failure the `"Error"` sentinel), the
empty-evidence early exit is therefore never taken, and the orchestrator
proceeds to emit the generating status and make the completion call. -/
theorem external_failed_web_proceeds (cfg : Config) (o : Oracle) (w : WebResult)
    (hw : o.searchWebR = Except.ok w)
    (h : o.classifyR = Except.ok Intent.external ∨
         (o.classifyR = Except.ok Intent.hybrid ∧ o.searchInternalR = Except.ok [])) :
    (streamBody cfg o).completionCalled = true ∧
    Event.status "Generating response..." ∈ (streamBody cfg o).events := by
  rcases h with h1 | ⟨h1, h2⟩
  · obtain ⟨mid, hev, -, -, hcc⟩ := completing_shape cfg o [] (some w)
      [Event.status "Confirming receipt, working on it now.",
       Event.status "Searching the web for current information..."]
    constructor
    · simp only [streamBody, h1, hw, afterSearch]
      exact hcc
    · simp only [streamBody, h1, hw, afterSearch]
      rw [hev]
      simp
  · have hred : streamBody cfg o = completing cfg o [] (some w)
        [Event.status "Confirming receipt, working on it now.",
         Event.status "Searching internal documents...",
         Event.status "Searching the web for market data..."] := by
      simp only [streamBody, h1, h2, hw, afterSearch]
      rw [if_neg (by simp)]
      simp
    obtain ⟨mid, hev, -, -, hcc⟩ := completing_shape cfg o [] (some w)
      [Event.status "Confirming receipt, working on it now.",
       Event.status "Searching internal documents...",
       Event.status "Searching the web for market data..."]
    rw [hred]
    exact ⟨hcc, by rw [hev]; simp⟩

theorem external_failed_web_proceeds_witness :
    (streamBody cfgW oracleExternalFailedWeb).completionCalled = true ∧
    Event.status "Generating response..." ∈ (streamBody cfgW oracleExternalFailedWeb).events :=
  external_failed_web_proceeds cfgW oracleExternalFailedWeb
    (search_web (WebOutcome.httpError 500 "Internal Server Error")
      "What is the market cap of Tesla?") rfl (Or.inl rfl)

theorem completing_no_new_sources (cfg : Config) (o : Oracle) (ir : List Doc)
    (er : Option WebResult) (evs : List Event) (l : List SrcEntry)
    (h : Event.sources l ∈ (completing cfg o ir er evs).events) :
    Event.sources l ∈ evs := by
  obtain ⟨mid, hev, hmid, -, -⟩ := completing_shape cfg o ir er evs
  rw [hev] at h
  rcases List.mem_append.mp h with h | h
  · exact h
  · rcases List.mem_cons.mp h with h | h
    · exact Event.noConfusion h
    · rcases List.mem_append.mp h with h | h
      · obtain ⟨s, hs⟩ := hmid _ h
        exact Event.noConfusion hs
      · simp at h

theorem C5aux_no (s : List Event) (P : Prop)
    (hnos : ∀ l, Event.sources l ∉ s) (hP : ¬P) :
    (s.countP isSourcesE ≤ 1) ∧ (∀ l, Event.sources l ∈ s → l.length ≤ 3) ∧
    (∃ a b, s = a ++ b ∧ (∀ c, Event.content c ∉ a) ∧ (∀ l, Event.sources l ∉ b)) ∧
    ((∃ l, Event.sources l ∈ s) ↔ P) := by
  refine ⟨?_, ?_, ⟨[], s, by simp, by simp, hnos⟩, ?_⟩
  · have h0 : s.countP isSourcesE = 0 := by
      rw [List.countP_eq_zero]
      intro e he hp
      cases e with
      | sources l => exact hnos l he
      | status t => simp [isSourcesE] at hp
      | content t => simp [isSourcesE] at hp
      | error t => simp [isSourcesE] at hp
      | done => simp [isSourcesE] at hp
    omega
  · intro l hl
    exact absurd hl (hnos l)
  · constructor
    · rintro ⟨l, hl⟩
      exact absurd hl (hnos l)
    · intro hp
      exact absurd hp hP

theorem C5aux_yes (s : List Event) (pre mid : List Event) (ir : List Doc) (P : Prop)
    (hs : s = (pre ++ [sourcesEvent ir])
        ++ Event.status "Generating response..." :: (mid ++ [Event.done]))
    (hpre_nc : ∀ c, Event.content c ∉ pre)
    (hpre_ns : ∀ l, Event.sources l ∉ pre)
    (hmid : ∀ e ∈ mid, ∃ t, e = Event.content t)
    (hP : P) :
    (s.countP isSourcesE ≤ 1) ∧ (∀ l, Event.sources l ∈ s → l.length ≤ 3) ∧
    (∃ a b, s = a ++ b ∧ (∀ c, Event.content c ∉ a) ∧ (∀ l, Event.sources l ∉ b)) ∧
    ((∃ l, Event.sources l ∈ s) ↔ P) := by
  have hpre0 : pre.countP isSourcesE = 0 := by
    rw [List.countP_eq_zero]
    intro e he hp
    cases e with
    | sources l => exact hpre_ns l he
    | status t => simp [isSourcesE] at hp
    | content t => simp [isSourcesE] at hp
    | error t => simp [isSourcesE] at hp
    | done => simp [isSourcesE] at hp
  have hmid0 : mid.countP isSourcesE = 0 := by
    rw [List.countP_eq_zero]
    intro e he hp
    obtain ⟨t, rfl⟩ := hmid e he
    simp [isSourcesE] at hp
  subst hs
  refine ⟨?_, ?_, ?_, ?_⟩
  · simp [List.countP_append, List.countP_cons, hpre0, hmid0, isSourcesE, sourcesEvent]
  · intro l hl
    rcases List.mem_append.mp hl with h | h
    · rcases List.mem_append.mp h with h | h
      · exact absurd h (hpre_ns l)
      · simp only [List.mem_singleton, sourcesEvent] at h
        have : l = (ir.take 3).map (fun d => ⟨d.title, d.snippet, d.score⟩) :=
          Event.sources.inj h
        rw [this, List.length_map, List.length_take]
        exact Nat.min_le_left 3 _
    · rcases List.mem_cons.mp h with h | h
      · exact Event.noConfusion h
      · rcases List.mem_append.mp h with h | h
        · obtain ⟨t, ht⟩ := hmid _ h
          exact Event.noConfusion ht
        · simp at h
  · refine ⟨pre ++ [sourcesEvent ir],
      Event.status "Generating response..." :: (mid ++ [Event.done]), rfl, ?_, ?_⟩
    · intro c hc
      rcases List.mem_append.mp hc with h | h
      · exact hpre_nc c h
      · simp [sourcesEvent] at h
    · intro l hl
      rcases List.mem_cons.mp hl with h | h
      · exact Event.noConfusion h
      · rcases List.mem_append.mp h with h | h
        · obtain ⟨t, ht⟩ := hmid _ h
          exact Event.noConfusion ht
        · simp at h
  · constructor
    · intro _
      exact hP
    · intro _
      refine ⟨(ir.take 3).map (fun d => ⟨d.title, d.snippet, d.score⟩), ?_⟩
      rw [List.mem_append]
      left
      rw [List.mem_append]
      right
      simp [sourcesEvent]

/-- C5: given the (always-holding) success of the classify, internal
search and web search calls, at most one `sources` event is emitted, it
carries at most 3 entries, every `content` event of the stream comes
after it, and it is emitted iff the internal search produced at least one
document (the internal search runs only for `internal` and `hybrid`
intents). -/
theorem sources_event_invariants (cfg : Config) (o : Oracle) (it : Intent)
    (ir : List Doc) (w : WebResult)
    (h1 : o.classifyR = Except.ok it) (h2 : o.searchInternalR = Except.ok ir)
    (h3 : o.searchWebR = Except.ok w) :
    ((stream_generator cfg o).countP isSourcesE ≤ 1) ∧
    (∀ l, Event.sources l ∈ stream_generator cfg o → l.length ≤ 3) ∧
    (∃ a b, stream_generator cfg o = a ++ b ∧ (∀ c, Event.content c ∉ a) ∧
      (∀ l, Event.sources l ∉ b)) ∧
    ((∃ l, Event.sources l ∈ stream_generator cfg o) ↔
      ((it = Intent.internal ∨ it = Intent.hybrid) ∧ ir ≠ [])) := by
  cases it with
  | external =>
    have hbody : streamBody cfg o = completing cfg o [] (some w)
        [Event.status "Confirming receipt, working on it now.",
         Event.status "Searching the web for current information..."] := by
      simp only [streamBody, h1, h3, afterSearch]
    obtain ⟨mid, hev, hmid, hesc, -⟩ := completing_shape cfg o [] (some w)
      [Event.status "Confirming receipt, working on it now.",
       Event.status "Searching the web for current information..."]
    have hstream : stream_generator cfg o = (completing cfg o [] (some w)
        [Event.status "Confirming receipt, working on it now.",
         Event.status "Searching the web for current information..."]).events := by
      simp only [stream_generator, hbody]
      rw [hesc]
    apply C5aux_no
    · intro l hl
      rw [hstream] at hl
      have := completing_no_new_sources cfg o [] (some w) _ l hl
      simp at this
    · simp
  | internal =>
    by_cases hir : ir = []
    · subst hir
      have hbody : streamBody cfg o =
          ⟨[Event.status "Confirming receipt, working on it now.",
            Event.status "Searching internal documents...",
            Event.content "I couldn\u0027t find any relevant information in our internal documents to answer your question.",
            Event.done], none, false⟩ := by
        simp [streamBody, h1, h2, afterSearch]
      have hstream : stream_generator cfg o =
          [Event.status "Confirming receipt, working on it now.",
           Event.status "Searching internal documents...",
           Event.content "I couldn\u0027t find any relevant information in our internal documents to answer your question.",
           Event.done] := by
        simp only [stream_generator, hbody]
      apply C5aux_no
      · intro l hl
        rw [hstream] at hl
        simp at hl
      · simp
    · have hbody : streamBody cfg o = completing cfg o ir none
          ([Event.status "Confirming receipt, working on it now.",
            Event.status "Searching internal documents..."] ++ [sourcesEvent ir]) := by
        simp only [streamBody, h1, h2, afterSearch]
        rw [if_neg hir]
      obtain ⟨mid, hev, hmid, hesc, -⟩ := completing_shape cfg o ir none
        ([Event.status "Confirming receipt, working on it now.",
          Event.status "Searching internal documents..."] ++ [sourcesEvent ir])
      have hstream : stream_generator cfg o =
          ([Event.status "Confirming receipt, working on it now.",
            Event.status "Searching internal documents..."] ++ [sourcesEvent ir])
          ++ Event.status "Generating response..." :: (mid ++ [Event.done]) := by
        simp only [stream_generator, hbody]
        rw [hesc]
        exact hev
      exact C5aux_yes _ _ mid ir _ hstream (by simp) (by simp) hmid (by simp [hir])
  | hybrid =>
    by_cases hir : ir = []
    · subst hir
      have hbody : streamBody cfg o = completing cfg o [] (some w)
          [Event.status "Confirming receipt, working on it now.",
           Event.status "Searching internal documents...",
           Event.status "Searching the web for market data..."] := by
        simp only [streamBody, h1, h2, h3, afterSearch]
        rw [if_neg (by simp)]
        simp
      obtain ⟨mid, hev, hmid, hesc, -⟩ := completing_shape cfg o [] (some w)
        [Event.status "Confirming receipt, working on it now.",
         Event.status "Searching internal documents...",
         Event.status "Searching the web for market data..."]
      have hstream : stream_generator cfg o = (completing cfg o [] (some w)
          [Event.status "Confirming receipt, working on it now.",
           Event.status "Searching internal documents...",
           Event.status "Searching the web for market data..."]).events := by
        simp only [stream_generator, hbody]
        rw [hesc]
      apply C5aux_no
      · intro l hl
        rw [hstream] at hl
        have := completing_no_new_sources cfg o [] (some w) _ l hl
        simp at this
      · simp
    · have hbody : streamBody cfg o = completing cfg o ir (some w)
          ([Event.status "Confirming receipt, working on it now.",
            Event.status "Searching internal documents...",
            Event.status "Searching the web for market data..."] ++ [sourcesEvent ir]) := by
        simp only [streamBody, h1, h2, h3, afterSearch]
        rw [if_neg (by simp [hir]), if_neg hir]
      obtain ⟨mid, hev, hmid, hesc, -⟩ := completing_shape cfg o ir (some w)
        ([Event.status "Confirming receipt, working on it now.",
          Event.status "Searching internal documents...",
          Event.status "Searching the web for market data..."] ++ [sourcesEvent ir])
      have hstream : stream_generator cfg o =
          ([Event.status "Confirming receipt, working on it now.",
            Event.status "Searching internal documents...",
            Event.status "Searching the web for market data..."] ++ [sourcesEvent ir])
          ++ Event.status "Generating response..." :: (mid ++ [Event.done]) := by
        simp only [stream_generator, hbody]
        rw [hesc]
        exact hev
      exact C5aux_yes _ _ mid ir _ hstream (by simp) (by simp) hmid (by simp [hir])

/-! ## Lemmas about the snippet extractor -/

theorem bestScanAux_spec (qws : List String) :
    ∀ (l : List String) (i : Nat) (best maxSc : Int), 0 ≤ maxSc →
    ((bestScanAux qws l i best maxSc = best ∧
       ∀ k, k < l.length → (snippetScore qws (l.getD k "") : Int) ≤ maxSc)
     ∨ (∃ k, k < l.length ∧
         bestScanAux qws l i best maxSc = ((i + k : Nat) : Int) ∧
         maxSc < (snippetScore qws (l.getD k "") : Int) ∧
         (∀ j, j < k → snippetScore qws (l.getD j "") < snippetScore qws (l.getD k "")) ∧
         (∀ j, j < l.length →
            snippetScore qws (l.getD j "") ≤ snippetScore qws (l.getD k "")))) := by
  intro l
  induction l with
  | nil =>
    intro i best maxSc _
    left
    exact ⟨rfl, by intro k hk; simp at hk⟩
  | cons s rest ih =>
    intro i best maxSc hms
    by_cases hcmp : maxSc < (snippetScore qws s : Int)
    · have hstep : bestScanAux qws (s :: rest) i best maxSc
          = bestScanAux qws rest (i + 1) (i : Int) ((snippetScore qws s : Nat) : Int) := by
        simp [bestScanAux, hcmp]
      rcases ih (i + 1) (i : Int) ((snippetScore qws s : Nat) : Int)
          (Int.natCast_nonneg _) with ⟨heq, hall⟩ | ⟨k, hk, heq, hgt, hfirst, hmax⟩
      · right
        refine ⟨0, by simp, ?_, ?_, ?_, ?_⟩
        · rw [hstep, heq]; simp
        · simpa using hcmp
        · intro j hj; omega
        · intro j hj
          cases j with
          | zero => simp
          | succ m =>
            have h2 := hall m (by simpa using hj)
            simp only [List.getD_cons_succ, List.getD_cons_zero] at h2 ⊢
            exact_mod_cast h2
      · right
        refine ⟨k + 1, by simpa using Nat.succ_lt_succ hk, ?_, ?_, ?_, ?_⟩
        · rw [hstep, heq]
          congr 1
          omega
        · simp only [List.getD_cons_succ]
          exact lt_trans hcmp hgt
        · intro j hj
          cases j with
          | zero =>
            simp only [List.getD_cons_succ, List.getD_cons_zero]
            exact_mod_cast hgt
          | succ m =>
            simp only [List.getD_cons_succ]
            exact hfirst m (by omega)
        · intro j hj
          cases j with
          | zero =>
            simp only [List.getD_cons_succ, List.getD_cons_zero]
            exact_mod_cast le_of_lt hgt
          | succ m =>
            simp only [List.getD_cons_succ]
            exact hmax m (by simp only [List.length_cons] at hj; omega)
    · have hstep : bestScanAux qws (s :: rest) i best maxSc
          = bestScanAux qws rest (i + 1) best maxSc := by
        simp [bestScanAux, hcmp]
      rcases ih (i + 1) best maxSc hms with ⟨heq, hall⟩ | ⟨k, hk, heq, hgt, hfirst, hmax⟩
      · left
        refine ⟨by rw [hstep, heq], ?_⟩
        intro k hk
        cases k with
        | zero =>
          simpa using Int.not_lt.mp hcmp
        | succ m =>
          simp only [List.getD_cons_succ]
          exact hall m (by simpa using hk)
      · right
        refine ⟨k + 1, by simpa using Nat.succ_lt_succ hk, ?_, ?_, ?_, ?_⟩
        · rw [hstep, heq]
          congr 1
          omega
        · simp only [List.getD_cons_succ]
          exact hgt
        · intro j hj
          cases j with
          | zero =>
            simp only [List.getD_cons_succ, List.getD_cons_zero]
            have h2 : (snippetScore qws s : Int) ≤ maxSc := Int.not_lt.mp hcmp
            exact_mod_cast lt_of_le_of_lt h2 hgt
          | succ m =>
            simp only [List.getD_cons_succ]
            exact hfirst m (by omega)
        · intro j hj
          cases j with
          | zero =>
            simp only [List.getD_cons_succ, List.getD_cons_zero]
            have h2 : (snippetScore qws s : Int) ≤ maxSc := Int.not_lt.mp hcmp
            exact_mod_cast le_of_lt (lt_of_le_of_lt h2 hgt)
          | succ m =>
            simp only [List.getD_cons_succ]
            exact hmax m (by simp only [List.length_cons] at hj; omega)

theorem windowSnippet_eq (ss : List String) (b w : Nat) :
    windowSnippet ss b w =
      (if 0 < b - w then "... " else "")
      ++ String.intercalate " " ((ss.drop (b - w)).take (min ss.length (b + w + 1) - (b - w)))
      ++ (if b + w + 1 < ss.length then " ..." else "") := by
  have h3 : (min ss.length (b + w + 1) < ss.length) ↔ (b + w + 1 < ss.length) := by omega
  by_cases hpre : 0 < b - w <;> by_cases hsuf : b + w + 1 < ss.length <;>
    simp [windowSnippet, hpre, hsuf, h3, String.append_assoc]

theorem extract_snippet_core_spec (sentences : List String) (query : String) (window : Nat)
    (hne : sentences ≠ []) :
    ∃ b, b < sentences.length ∧
      (∀ j, j < sentences.length →
        snippetScore (pySplit (toLowerStr query)) (sentences.getD j "")
          ≤ snippetScore (pySplit (toLowerStr query)) (sentences.getD b "")) ∧
      (∀ j, j < b →
        snippetScore (pySplit (toLowerStr query)) (sentences.getD j "")
          < snippetScore (pySplit (toLowerStr query)) (sentences.getD b "")) ∧
      ((∀ j, j < sentences.length →
        snippetScore (pySplit (toLowerStr query)) (sentences.getD j "") = 0) → b = 0) ∧
      extract_snippet_core sentences query window = windowSnippet sentences b window := by
  rcases bestScanAux_spec (pySplit (toLowerStr query)) sentences 0 (-1) 0 (le_refl 0)
      with ⟨heq, hall⟩ | ⟨k, hk, heq, hgt, hfirst, hmax⟩
  · refine ⟨0, ?_, ?_, ?_, fun _ => rfl, ?_⟩
    · cases sentences with
      | nil => exact absurd rfl hne
      | cons a t => simp
    · intro j hj
      have hj0 := hall j hj
      have h00 : (snippetScore (pySplit (toLowerStr query)) (sentences.getD 0 "") : Int) ≤ 0 := by
        apply hall
        cases sentences with
        | nil => exact absurd rfl hne
        | cons a t => simp
      omega
    · intro j hj; omega
    · simp [extract_snippet_core, heq]
  · refine ⟨k, hk, hmax, hfirst, ?_, ?_⟩
    · intro hz
      have := hz k hk
      omega
    · have hne2 : ((0 + k : Nat) : Int) ≠ -1 := by omega
      simp [extract_snippet_core, heq, hne2]

/-- C6: for every text the tokenizer splits into a non-empty sentence
list, the extracted snippet is the window of sentences
`[best - 1, best + 1]` (the call-site window size) clipped to bounds and
joined with spaces, around the first sentence whose
lowercase-word-intersection score with the query is strictly largest
(index 0 when every sentence scores 0), prefixed with an ellipsis marker
iff leading sentences were clipped and suffixed with one iff trailing
sentences were clipped. -/
theorem extract_snippet_selects_best (tok : String → Option (List String))
    (text query : String) (ss : List String)
    (htok : tok text = some ss) (hne : ss ≠ []) :
    ∃ b, b < ss.length ∧
      (∀ j, j < ss.length →
        snippetScore (pySplit (toLowerStr query)) (ss.getD j "")
          ≤ snippetScore (pySplit (toLowerStr query)) (ss.getD b "")) ∧
      (∀ j, j < b →
        snippetScore (pySplit (toLowerStr query)) (ss.getD j "")
          < snippetScore (pySplit (toLowerStr query)) (ss.getD b "")) ∧
      ((∀ j, j < ss.length →
        snippetScore (pySplit (toLowerStr query)) (ss.getD j "") = 0) → b = 0) ∧
      extract_snippet tok text query =
        (if 0 < b - 1 then "... " else "")
        ++ String.intercalate " " ((ss.drop (b - 1)).take (min ss.length (b + 1 + 1) - (b - 1)))
        ++ (if b + 1 + 1 < ss.length then " ..." else "") := by
  cases ss with
  | nil => exact absurd rfl hne
  | cons a t =>
    obtain ⟨b, hb, hmax, hfirst, hzero, hout⟩ :=
      extract_snippet_core_spec (a :: t) query 1 hne
    refine ⟨b, hb, hmax, hfirst, hzero, ?_⟩
    rw [show extract_snippet tok text query = extract_snippet_core (a :: t) query 1 by
      simp [extract_snippet, htok]]
    rw [hout, windowSnippet_eq]

theorem extract_snippet_selects_best_witness :
    ∃ b, b < (["Alpha beta.", "Gamma delta.", "Beta epsilon.", "Zeta."] : List String).length ∧
      (∀ j, j < (["Alpha beta.", "Gamma delta.", "Beta epsilon.", "Zeta."] : List String).length →
        snippetScore (pySplit (toLowerStr "beta things"))
            ((["Alpha beta.", "Gamma delta.", "Beta epsilon.", "Zeta."] : List String).getD j "")
          ≤ snippetScore (pySplit (toLowerStr "beta things"))
            ((["Alpha beta.", "Gamma delta.", "Beta epsilon.", "Zeta."] : List String).getD b "")) ∧
      (∀ j, j < b →
        snippetScore (pySplit (toLowerStr "beta things"))
            ((["Alpha beta.", "Gamma delta.", "Beta epsilon.", "Zeta."] : List String).getD j "")
          < snippetScore (pySplit (toLowerStr "beta things"))
            ((["Alpha beta.", "Gamma delta.", "Beta epsilon.", "Zeta."] : List String).getD b "")) ∧
      ((∀ j, j < (["Alpha beta.", "Gamma delta.", "Beta epsilon.", "Zeta."] : List String).length →
        snippetScore (pySplit (toLowerStr "beta things"))
          ((["Alpha beta.", "Gamma delta.", "Beta epsilon.", "Zeta."] : List String).getD j "") = 0)
        → b = 0) ∧
      extract_snippet (fun _ => some ["Alpha beta.", "Gamma delta.", "Beta epsilon.", "Zeta."])
          "doc" "beta things" =
        (if 0 < b - 1 then "... " else "")
        ++ String.intercalate " "
          (((["Alpha beta.", "Gamma delta.", "Beta epsilon.", "Zeta."] : List String).drop (b - 1)).take
            (min (["Alpha beta.", "Gamma delta.", "Beta epsilon.", "Zeta."] : List String).length
              (b + 1 + 1) - (b - 1)))
        ++ (if b + 1 + 1 < (["Alpha beta.", "Gamma delta.", "Beta epsilon.", "Zeta."] : List String).length
            then " ..." else "") :=
  extract_snippet_selects_best
    (fun _ => some ["Alpha beta.", "Gamma delta.", "Beta epsilon.", "Zeta."]) "doc" "beta things"
    ["Alpha beta.", "Gamma delta.", "Beta epsilon.", "Zeta."] rfl (by decide)

theorem sources_event_invariants_witness :
    ((stream_generator cfgW oracleInternalDoc).countP isSourcesE ≤ 1) ∧
    (∀ l, Event.sources l ∈ stream_generator cfgW oracleInternalDoc → l.length ≤ 3) ∧
    (∃ a b, stream_generator cfgW oracleInternalDoc = a ++ b ∧
      (∀ c, Event.content c ∉ a) ∧ (∀ l, Event.sources l ∉ b)) ∧
    ((∃ l, Event.sources l ∈ stream_generator cfgW oracleInternalDoc) ↔
      ((Intent.internal = Intent.internal ∨ Intent.internal = Intent.hybrid) ∧
        ([docW] : List Doc) ≠ [])) :=
  sources_event_invariants cfgW oracleInternalDoc Intent.internal [docW] ⟨"", "", ""⟩
    rfl rfl rfl

end Bullpen
